import Mathlib

/-!
Verification of the double-entry bookkeeping backend of this repository.

The transaction handlers (`src/server/src/handlers/transactions.ts`) and the
report handlers (`src/server/src/handlers/reports.ts`) operate on a relational
store holding users, relations, accounts, transaction headers and transaction
details.  We embed the store as explicit lists of rows and each handler as a
function from a store to a result (`Except` for the thrown errors) paired with
the updated store.  Monetary amounts (JavaScript numbers holding decimal
values) are modelled as rationals; JavaScript `Date` values are modelled by
their calendar components (`month` is 0-based, as in `Date.getMonth`).
-/

/-- Calendar date, mirroring the components of a JavaScript `Date` that the
handlers inspect.  `month` is 0-based as returned by `Date.getMonth`. -/
structure Datum where
  year : Nat
  month : Nat
  day : Nat
deriving DecidableEq, Repr

/-- `a` is on or before `b` (JavaScript `Date` comparison, via the calendar
components). -/
def dateLe (a b : Datum) : Bool :=
  a.year < b.year ||
    (a.year == b.year &&
      (a.month < b.month || (a.month == b.month && a.day ≤ b.day)))

/-- The `account_type` enum of `db/schema.ts`. -/
inductive AccountType where
  | ASET
  | KEWAJIBAN
  | EKUITAS
  | PENDAPATAN
  | BEBAN
deriving DecidableEq, Repr

/-- A row of the `accounts` table (only the columns the verified handlers
read). -/
structure Account where
  id : Nat
  kode : String
  nama : String
  tipe : AccountType
  saldo_awal : ℚ
  is_active : Bool
deriving DecidableEq, Repr

/-- A row of the `transaction_headers` table. -/
structure TransactionHeader where
  id : Nat
  nomor_transaksi : String
  tanggal : Datum
  tipe : String
  deskripsi : String
  total_debit : ℚ
  total_kredit : ℚ
  relation_id : Option Nat
  user_id : Nat
  is_posted : Bool
deriving DecidableEq, Repr

/-- A row of the `transaction_details` table. -/
structure TransactionDetail where
  id : Nat
  header_id : Nat
  account_id : Nat
  deskripsi : String
  debit : ℚ
  kredit : ℚ
  urutan : Int
deriving DecidableEq, Repr

/-- `createTransactionHeaderInputSchema` of `schema.ts` (`relation_id` is
nullable: `none` is JavaScript `null`). -/
structure CreateTransactionHeaderInput where
  nomor_transaksi : String
  tanggal : Datum
  tipe : String
  deskripsi : String
  relation_id : Option Nat
  user_id : Nat
deriving DecidableEq, Repr

/-- `createTransactionDetailInputSchema` of `schema.ts`. -/
structure CreateTransactionDetailInput where
  header_id : Nat
  account_id : Nat
  deskripsi : String
  debit : ℚ
  kredit : ℚ
  urutan : Int
deriving DecidableEq, Repr

/-- `createCompleteTransactionInputSchema` of `schema.ts`: a header input plus
a list of detail inputs (no minimum length is imposed by the schema). -/
structure CreateCompleteTransactionInput where
  header : CreateTransactionHeaderInput
  details : List CreateTransactionDetailInput
deriving DecidableEq, Repr

/-- `Partial<CreateTransactionHeaderInput>`: each field may be absent
(`undefined`).  The `relation_id` field may additionally be present but
`null`, hence the nested option. -/
structure UpdateTransactionHeaderInput where
  nomor_transaksi : Option String
  tanggal : Option Datum
  tipe : Option String
  deskripsi : Option String
  relation_id : Option (Option Nat)
  user_id : Option Nat
deriving DecidableEq, Repr

/-- `Partial<CreateTransactionDetailInput>`.  (`header_id` is accepted by the
type but never copied into the update, exactly as in the handler.) -/
structure UpdateTransactionDetailInput where
  header_id : Option Nat
  account_id : Option Nat
  deskripsi : Option String
  debit : Option ℚ
  kredit : Option ℚ
  urutan : Option Int
deriving DecidableEq, Repr

/-- The result type of `createCompleteTransaction`. -/
structure CompleteTransaction where
  header : TransactionHeader
  details : List TransactionDetail
deriving DecidableEq, Repr

/-- `reportFilterSchema` of `schema.ts` (the optional `account_id` and
`relation_id` filters are not read by the implemented reports). -/
structure ReportFilter where
  dari_tanggal : Datum
  sampai_tanggal : Datum
deriving DecidableEq, Repr

/-- The `Balance` report row of `schema.ts`. -/
structure Balance where
  account_id : Nat
  account_kode : String
  account_nama : String
  account_tipe : AccountType
  saldo_awal : ℚ
  debit : ℚ
  kredit : ℚ
  saldo_akhir : ℚ
deriving DecidableEq, Repr

/-- The relational store.  Users and relations are only ever consulted for
existence of an id, so only their ids are kept.  `nextHeaderId` and
`nextDetailId` model the `serial` primary key generators. -/
structure DB where
  users : List Nat
  relations : List Nat
  accounts : List Account
  headers : List TransactionHeader
  details : List TransactionDetail
  nextHeaderId : Nat
  nextDetailId : Nat
deriving DecidableEq, Repr

/-- JavaScript truthiness of a nullable number (`null` and `0` are falsy). -/
def truthyOpt : Option Nat → Bool
  | none => false
  | some n => n != 0

/-- JavaScript truthiness of a `Partial` nullable number field
(`undefined`, `null` and `0` are falsy). -/
def truthyOptOpt : Option (Option Nat) → Bool
  | none => false
  | some none => false
  | some (some n) => n != 0

/-- First detail input whose `account_id` matches no account, as scanned by
the account-verification loop of `createCompleteTransaction`. -/
def firstMissingAccount (db : DB) : List CreateTransactionDetailInput → Option Nat
  | [] => none
  | d :: rest =>
      if db.accounts.any (fun a => a.id == d.account_id) then
        firstMissingAccount db rest
      else
        some d.account_id

/-- Detail rows inserted by `createCompleteTransaction`, with serial ids
starting at `startId` and all pointing at header `hid`. -/
def mkDetailRows (hid startId : Nat) : List CreateTransactionDetailInput → List TransactionDetail
  | [] => []
  | d :: rest =>
      { id := startId, header_id := hid, account_id := d.account_id,
        deskripsi := d.deskripsi, debit := d.debit, kredit := d.kredit,
        urutan := d.urutan } :: mkDetailRows hid (startId + 1) rest

/-- `updateHeaderTotals` of `transactions.ts`: recompute `total_debit` and
`total_kredit` of header `headerId` from its detail rows. -/
def updateHeaderTotals (db : DB) (headerId : Nat) : DB :=
  let ds := db.details.filter (fun d => d.header_id == headerId)
  let totalDebit := ds.foldl (fun s d => s + d.debit) 0
  let totalKredit := ds.foldl (fun s d => s + d.kredit) 0
  { db with
    headers := db.headers.map (fun h =>
      if h.id == headerId then
        { h with total_debit := totalDebit, total_kredit := totalKredit }
      else h) }

/-- `validateTransactionBalance` of `transactions.ts`: debits equal credits
up to the floating-point tolerance `0.01`. -/
def validateTransactionBalance (db : DB) (headerId : Nat) : Bool :=
  let ds := db.details.filter (fun d => d.header_id == headerId)
  let totalDebit : ℚ := ds.foldl (fun s d => s + d.debit) 0
  let totalKredit : ℚ := ds.foldl (fun s d => s + d.kredit) 0
  if |totalDebit - totalKredit| < 1 / 100 then true else false

/-- `createCompleteTransaction` of `transactions.ts`. -/
def createCompleteTransaction (db : DB) (input : CreateCompleteTransactionInput) :
    Except String CompleteTransaction × DB :=
  let totalDebit := input.details.foldl (fun s d => s + d.debit) 0
  let totalKredit := input.details.foldl (fun s d => s + d.kredit) 0
  if 1 / 100 < |totalDebit - totalKredit| then
    (Except.error "Total debit must equal total kredit", db)
  else if !(db.users.contains input.header.user_id) then
    (Except.error "User not found", db)
  else if truthyOpt input.header.relation_id &&
      !(db.relations.contains (input.header.relation_id.getD 0)) then
    (Except.error "Relation not found", db)
  else
    match firstMissingAccount db input.details with
    | some missingId =>
        (Except.error ("Account with ID " ++ toString missingId ++ " not found"), db)
    | none =>
        let createdHeader : TransactionHeader :=
          { id := db.nextHeaderId,
            nomor_transaksi := input.header.nomor_transaksi,
            tanggal := input.header.tanggal,
            tipe := input.header.tipe,
            deskripsi := input.header.deskripsi,
            total_debit := totalDebit,
            total_kredit := totalKredit,
            relation_id := input.header.relation_id,
            user_id := input.header.user_id,
            is_posted := false }
        let newDetails := mkDetailRows createdHeader.id db.nextDetailId input.details
        (Except.ok { header := createdHeader, details := newDetails },
          { db with
            headers := db.headers ++ [createdHeader],
            details := db.details ++ newDetails,
            nextHeaderId := db.nextHeaderId + 1,
            nextDetailId := db.nextDetailId + input.details.length })

/-- `createTransactionHeader` of `transactions.ts`. -/
def createTransactionHeader (db : DB) (input : CreateTransactionHeaderInput) :
    Except String TransactionHeader × DB :=
  if !(db.users.contains input.user_id) then
    (Except.error "User not found", db)
  else if truthyOpt input.relation_id &&
      !(db.relations.contains (input.relation_id.getD 0)) then
    (Except.error "Relation not found", db)
  else
    let h : TransactionHeader :=
      { id := db.nextHeaderId,
        nomor_transaksi := input.nomor_transaksi,
        tanggal := input.tanggal,
        tipe := input.tipe,
        deskripsi := input.deskripsi,
        total_debit := 0,
        total_kredit := 0,
        relation_id := input.relation_id,
        user_id := input.user_id,
        is_posted := false }
    (Except.ok h,
      { db with headers := db.headers ++ [h], nextHeaderId := db.nextHeaderId + 1 })

/-- `addTransactionDetail` of `transactions.ts`. -/
def addTransactionDetail (db : DB) (input : CreateTransactionDetailInput) :
    Except String TransactionDetail × DB :=
  match db.headers.find? (fun h => h.id == input.header_id) with
  | none => (Except.error "Transaction header not found", db)
  | some h0 =>
      if h0.is_posted then
        (Except.error "Cannot add detail to posted transaction", db)
      else if !(db.accounts.any (fun a => a.id == input.account_id)) then
        (Except.error "Account not found", db)
      else
        let newDetail : TransactionDetail :=
          { id := db.nextDetailId, header_id := input.header_id,
            account_id := input.account_id, deskripsi := input.deskripsi,
            debit := input.debit, kredit := input.kredit, urutan := input.urutan }
        let db1 :=
          { db with details := db.details ++ [newDetail],
                    nextDetailId := db.nextDetailId + 1 }
        (Except.ok newDetail, updateHeaderTotals db1 input.header_id)

/-- The `updateData` applied by `updateTransactionHeader` (totals, posting
flag and id are never part of it). -/
def applyHeaderUpdate (input : UpdateTransactionHeaderInput) (h : TransactionHeader) :
    TransactionHeader :=
  { h with
    nomor_transaksi := input.nomor_transaksi.getD h.nomor_transaksi,
    tanggal := input.tanggal.getD h.tanggal,
    tipe := input.tipe.getD h.tipe,
    deskripsi := input.deskripsi.getD h.deskripsi,
    relation_id := input.relation_id.getD h.relation_id,
    user_id := input.user_id.getD h.user_id }

/-- `updateTransactionHeader` of `transactions.ts`. -/
def updateTransactionHeader (db : DB) (id : Nat) (input : UpdateTransactionHeaderInput) :
    Except String TransactionHeader × DB :=
  match db.headers.find? (fun h => h.id == id) with
  | none => (Except.error "Transaction not found", db)
  | some h0 =>
      if h0.is_posted then
        (Except.error "Cannot update posted transaction", db)
      else if truthyOpt input.user_id &&
          !(db.users.contains (input.user_id.getD 0)) then
        (Except.error "User not found", db)
      else if truthyOptOpt input.relation_id &&
          !(db.relations.contains ((input.relation_id.getD none).getD 0)) then
        (Except.error "Relation not found", db)
      else
        (Except.ok (applyHeaderUpdate input h0),
          { db with
            headers := db.headers.map (fun h =>
              if h.id == id then applyHeaderUpdate input h else h) })

/-- The `updateData` applied by `updateTransactionDetail` (`header_id` and the
row id are never part of it). -/
def applyDetailUpdate (input : UpdateTransactionDetailInput) (d : TransactionDetail) :
    TransactionDetail :=
  { d with
    account_id := input.account_id.getD d.account_id,
    deskripsi := input.deskripsi.getD d.deskripsi,
    debit := input.debit.getD d.debit,
    kredit := input.kredit.getD d.kredit,
    urutan := input.urutan.getD d.urutan }

/-- `updateTransactionDetail` of `transactions.ts`.  The initial lookup is an
inner join of the detail with its header, so a detail whose header is missing
behaves like a missing detail. -/
def updateTransactionDetail (db : DB) (id : Nat) (input : UpdateTransactionDetailInput) :
    Except String TransactionDetail × DB :=
  match db.details.find? (fun d => d.id == id) with
  | none => (Except.error "Transaction detail not found", db)
  | some d0 =>
      match db.headers.find? (fun h => h.id == d0.header_id) with
      | none => (Except.error "Transaction detail not found", db)
      | some h0 =>
          if h0.is_posted then
            (Except.error "Cannot update detail of posted transaction", db)
          else if truthyOpt input.account_id &&
              !(db.accounts.any (fun a => a.id == input.account_id.getD 0)) then
            (Except.error "Account not found", db)
          else
            let db1 :=
              { db with details := db.details.map (fun d =>
                  if d.id == id then applyDetailUpdate input d else d) }
            (Except.ok (applyDetailUpdate input d0),
              updateHeaderTotals db1 d0.header_id)

/-- `postTransaction` of `transactions.ts`: validate the balance, then mark
the header as posted. -/
def postTransaction (db : DB) (id : Nat) : Except String TransactionHeader × DB :=
  if !(validateTransactionBalance db id) then
    (Except.error "Transaction is not balanced (debits ≠ credits)", db)
  else
    match db.headers.find? (fun h => h.id == id) with
    | none => (Except.error "Transaction not found", db)
    | some h0 =>
        (Except.ok { h0 with is_posted := true },
          { db with headers := db.headers.map (fun h =>
              if h.id == id then { h with is_posted := true } else h) })

/-- `unpostTransaction` of `transactions.ts`: clear the posting flag, with no
validation at all. -/
def unpostTransaction (db : DB) (id : Nat) : Except String TransactionHeader × DB :=
  match db.headers.find? (fun h => h.id == id) with
  | none => (Except.error "Transaction not found", db)
  | some h0 =>
      (Except.ok { h0 with is_posted := false },
        { db with headers := db.headers.map (fun h =>
            if h.id == id then { h with is_posted := false } else h) })

/-- `deleteTransactionDetail` of `transactions.ts`. -/
def deleteTransactionDetail (db : DB) (id : Nat) : Except String Bool × DB :=
  match db.details.find? (fun d => d.id == id) with
  | none => (Except.error "Transaction detail not found", db)
  | some d0 =>
      match db.headers.find? (fun h => h.id == d0.header_id) with
      | none => (Except.error "Transaction detail not found", db)
      | some h0 =>
          if h0.is_posted then
            (Except.error "Cannot delete detail from posted transaction", db)
          else
            let db1 := { db with details := db.details.filter (fun d => !(d.id == id)) }
            (Except.ok true, updateHeaderTotals db1 d0.header_id)

/-- `deleteTransaction` of `transactions.ts`: delete the details, then the
header. -/
def deleteTransaction (db : DB) (id : Nat) : Except String Bool × DB :=
  match db.headers.find? (fun h => h.id == id) with
  | none => (Except.error "Transaction not found", db)
  | some h0 =>
      if h0.is_posted then
        (Except.error "Cannot delete posted transaction", db)
      else
        (Except.ok true,
          { db with
            details := db.details.filter (fun d => !(d.header_id == id)),
            headers := db.headers.filter (fun h => !(h.id == id)) })

/-- Decimal digits of a character list (the `parseInt` of a digit string). -/
def digitsToNat (l : List Char) : Nat :=
  l.foldl (fun n c => 10 * n + (c.toNat - 48)) 0

/-- The regular expression match `-(\d+)$` of `generateTransactionNumber`:
the maximal trailing digit run of `s`, provided it is non-empty and preceded
by a hyphen, parsed as a decimal number. -/
def trailingSeqNum (s : String) : Option Nat :=
  let rds := s.data.reverse.takeWhile Char.isDigit
  if rds.isEmpty then none
  else
    match s.data.reverse.drop rds.length with
    | '-' :: _ => some (digitsToNat rds.reverse)
    | _ => none

/-- `String.padStart(n, c)`. -/
def padStart (n : Nat) (c : Char) (s : String) : String :=
  String.mk (List.replicate (n - s.length) c) ++ s

/-- `generateTransactionNumber` of `transactions.ts`. -/
def generateTransactionNumber (db : DB) (tipe : String) (tanggal : Datum) : String :=
  let monthStr := padStart 2 '0' (toString (tanggal.month + 1))
  let prefixStr := tipe ++ "-" ++ toString tanggal.year ++ monthStr
  let existing := db.headers.filter (fun h => h.tipe == tipe)
  let sameMonthTransactions := existing.filter (fun h =>
    h.tanggal.year == tanggal.year && h.tanggal.month == tanggal.month)
  let maxSequence := sameMonthTransactions.foldl (fun m h =>
    match trailingSeqNum h.nomor_transaksi with
    | some n => max m n
    | none => m) 0
  prefixStr ++ "-" ++ padStart 3 '0' (toString (maxSequence + 1))

/-- The display order of the balance-sheet account types used by the report
sort (`ASET`, then `KEWAJIBAN`, then `EKUITAS`, everything else last). -/
def typeOrder : AccountType → Nat
  | .ASET => 1
  | .KEWAJIBAN => 2
  | .EKUITAS => 3
  | _ => 4

/-- Code-point comparison of character lists (the collation used to model
`localeCompare` on account codes). -/
def strLtAux : List Char → List Char → Bool
  | [], [] => false
  | [], _ :: _ => true
  | _ :: _, [] => false
  | a :: as, b :: bs =>
      if a.toNat < b.toNat then true
      else if b.toNat < a.toNat then false
      else strLtAux as bs

/-- Code-point comparison of strings. -/
def strLtB (a b : String) : Bool := strLtAux a.data b.data

/-- The report sort comparator on `Balance` rows, as a boolean
`comparator(a, b) <= 0`. -/
def balanceLe (a b : Balance) : Bool :=
  if typeOrder a.account_tipe == typeOrder b.account_tipe then
    !(strLtB b.account_kode a.account_kode)
  else
    typeOrder a.account_tipe < typeOrder b.account_tipe

/-- Insert `x` after every element `y` with `le y x` (stable insertion). -/
def insertLe (le : α → α → Bool) (x : α) : List α → List α
  | [] => [x]
  | y :: ys => if le y x then y :: insertLe le x ys else x :: y :: ys

/-- Stable sort by a boolean comparator (`Array.prototype.sort` with a
consistent comparator). -/
def isortLe (le : α → α → Bool) (l : List α) : List α :=
  l.foldl (fun acc x => insertLe le x acc) []

/-- The `Balance` row built for one account by
`getFinancialPositionReport`: the detail lines of the account are joined
with their headers, kept when dated on or before `sampai_tanggal`, and
totalled; the ending balance direction depends on the account type. -/
def mkBalanceRow (db : DB) (filter : ReportFilter) (account : Account) : Balance :=
  let accountTransactions :=
    (db.details.filter (fun d => d.account_id == account.id)).flatMap
      (fun d => (db.headers.filter (fun h =>
          h.id == d.header_id && dateLe h.tanggal filter.sampai_tanggal)).map
        (fun _ => (d.debit, d.kredit)))
  let totalDebit := accountTransactions.foldl (fun s t => s + t.1) 0
  let totalKredit := accountTransactions.foldl (fun s t => s + t.2) 0
  let saldoAwal := account.saldo_awal
  let saldoAkhir :=
    if account.tipe = AccountType.ASET then
      saldoAwal + totalDebit - totalKredit
    else if account.tipe = AccountType.KEWAJIBAN ∨ account.tipe = AccountType.EKUITAS then
      saldoAwal + totalKredit - totalDebit
    else
      saldoAwal + totalDebit - totalKredit
  { account_id := account.id, account_kode := account.kode,
    account_nama := account.nama, account_tipe := account.tipe,
    saldo_awal := saldoAwal, debit := totalDebit, kredit := totalKredit,
    saldo_akhir := saldoAkhir }

/-- `getFinancialPositionReport` of `reports.ts`. -/
def getFinancialPositionReport (db : DB) (filter : ReportFilter) : List Balance :=
  let accounts := db.accounts.filter (fun a => a.is_active)
  let balanceSheetAccounts := accounts.filter (fun a =>
    a.tipe == AccountType.ASET || a.tipe == AccountType.KEWAJIBAN ||
      a.tipe == AccountType.EKUITAS)
  let results := balanceSheetAccounts.map (mkBalanceRow db filter)
  isortLe balanceLe results

/-- `getIncomeStatementReport` of `reports.ts`: the handler is an unfinished
placeholder that ignores the store and the filter and returns the empty
list. -/
def getIncomeStatementReport (_filter : ReportFilter) : List Balance := []

/-- The claim-side description of `generateTransactionNumber`: the type, a
dash, year and zero-padded month, a dash, and the 3-digit zero-padded
successor of the largest trailing dash-digits sequence number among the
existing headers of the same type and calendar month (`0` standing in when
there is none, so that the first number is `001`). -/
def specTransactionNumber (db : DB) (tipe : String) (tanggal : Datum) : String :=
  let sameTypeMonth := db.headers.filter (fun h =>
    h.tipe == tipe &&
      (h.tanggal.year == tanggal.year && h.tanggal.month == tanggal.month))
  let seqNums := sameTypeMonth.filterMap (fun h => trailingSeqNum h.nomor_transaksi)
  let largest := seqNums.foldl max 0
  tipe ++ "-" ++ toString tanggal.year ++ padStart 2 '0' (toString (tanggal.month + 1)) ++
    "-" ++ padStart 3 '0' (toString (largest + 1))

/-- The report sort comparator, expressed directly on accounts. -/
def accountLe (a b : Account) : Bool :=
  if typeOrder a.tipe == typeOrder b.tipe then
    !(strLtB b.kode a.kode)
  else
    typeOrder a.tipe < typeOrder b.tipe

/-- The claim-side description of one row of the financial position report:
debit and kredit are the sums over the account's detail lines whose
transaction is dated on or before `sampai_tanggal` (posted or not), and the
ending balance is `saldo_awal + debit - kredit` for `ASET` accounts and
`saldo_awal + kredit - debit` for `KEWAJIBAN` and `EKUITAS` accounts. -/
def specBalanceRow (db : DB) (filter : ReportFilter) (a : Account) : Balance :=
  let lines := db.details.filter (fun d =>
    d.account_id == a.id &&
      db.headers.any (fun h =>
        h.id == d.header_id && dateLe h.tanggal filter.sampai_tanggal))
  let debit := (lines.map (fun d => d.debit)).sum
  let kredit := (lines.map (fun d => d.kredit)).sum
  let saldoAkhir :=
    if a.tipe = AccountType.ASET then a.saldo_awal + debit - kredit
    else a.saldo_awal + kredit - debit
  { account_id := a.id, account_kode := a.kode, account_nama := a.nama,
    account_tipe := a.tipe, saldo_awal := a.saldo_awal, debit := debit,
    kredit := kredit, saldo_akhir := saldoAkhir }

/-- The claim-side description of the financial position report: one row per
active `ASET`/`KEWAJIBAN`/`EKUITAS` account, ordered by account type and then
by account code. -/
def financialPositionSpec (db : DB) (filter : ReportFilter) : List Balance :=
  (isortLe accountLe (db.accounts.filter (fun a =>
    a.is_active &&
      (a.tipe == AccountType.ASET || a.tipe == AccountType.KEWAJIBAN ||
        a.tipe == AccountType.EKUITAS)))).map (specBalanceRow db filter)

/-- The exported mutating transaction operations of `transactions.ts`. -/
inductive TxOp where
  | createHeader : CreateTransactionHeaderInput → TxOp
  | createComplete : CreateCompleteTransactionInput → TxOp
  | addDetail : CreateTransactionDetailInput → TxOp
  | updateHeader : Nat → UpdateTransactionHeaderInput → TxOp
  | updateDetail : Nat → UpdateTransactionDetailInput → TxOp
  | deleteDetail : Nat → TxOp
  | post : Nat → TxOp
  | unpost : Nat → TxOp
  | deleteTx : Nat → TxOp

/-- The store reached after running one exported transaction operation
(whether it succeeds or throws). -/
def applyTxOp (db : DB) : TxOp → DB
  | .createHeader input => (createTransactionHeader db input).2
  | .createComplete input => (createCompleteTransaction db input).2
  | .addDetail input => (addTransactionDetail db input).2
  | .updateHeader id input => (updateTransactionHeader db id input).2
  | .updateDetail id input => (updateTransactionDetail db id input).2
  | .deleteDetail id => (deleteTransactionDetail db id).2
  | .post id => (postTransaction db id).2
  | .unpost id => (unpostTransaction db id).2
  | .deleteTx id => (deleteTransaction db id).2

/-- Sum of the debit amounts of the detail rows of header `hid`. -/
def detailsDebitSum (details : List TransactionDetail) (hid : Nat) : ℚ :=
  ((details.filter (fun d => d.header_id == hid)).map (fun d => d.debit)).sum

/-- Sum of the kredit amounts of the detail rows of header `hid`. -/
def detailsKreditSum (details : List TransactionDetail) (hid : Nat) : ℚ :=
  ((details.filter (fun d => d.header_id == hid)).map (fun d => d.kredit)).sum

/-- The header/detail totals invariant: every stored header carries the sums
of its detail rows. -/
def TotalsInv (db : DB) : Prop :=
  ∀ h ∈ db.headers, h.total_debit = detailsDebitSum db.details h.id ∧
    h.total_kredit = detailsKreditSum db.details h.id

/-- Well-formedness of the store: primary keys are unique and below the
serial generators, and detail rows reference no id the header generator has
not produced yet. -/
structure WF (db : DB) : Prop where
  header_id_lt : ∀ h ∈ db.headers, h.id < db.nextHeaderId
  detail_id_lt : ∀ d ∈ db.details, d.id < db.nextDetailId
  detail_header_lt : ∀ d ∈ db.details, d.header_id < db.nextHeaderId
  header_nodup : (db.headers.map (fun h => h.id)).Nodup
  detail_nodup : (db.details.map (fun d => d.id)).Nodup

theorem foldl_add_map (f : α → ℚ) :
    ∀ (l : List α) (a : ℚ), l.foldl (fun s x => s + f x) a = a + (l.map f).sum
  | [], a => by simp
  | x :: t, a => by
      simp [List.foldl_cons, foldl_add_map f t (a + f x)]
      ring

theorem filter_filter_and (p q : α → Bool) (l : List α) :
    (l.filter p).filter q = l.filter (fun a => p a && q a) := by
  induction l with
  | nil => rfl
  | cons x t ih =>
      by_cases hp : p x <;> by_cases hq : q x <;>
        simp [List.filter_cons, hp, hq, ih]

theorem foldl_optmax (f : β → Option Nat) :
    ∀ (l : List β) (a : Nat),
      l.foldl (fun m h =>
        match f h with
        | some n => max m n
        | none => m) a = (l.filterMap f).foldl max a
  | [], _ => rfl
  | x :: t, a => by
      cases hfx : f x <;>
        simp [List.foldl_cons, List.filterMap_cons, hfx, foldl_optmax f t]

/-- C6: `generateTransactionNumber(tipe, tanggal)` returns
`tipe-YYYYMM-NNN` where `YYYY`/`MM` are the year and zero-padded month of
`tanggal` and `NNN` is the 3-digit zero-padded successor of the largest
trailing dash-digits sequence number among the existing headers of the same
type in the same calendar month (`001` when none exists). -/
theorem generateTransactionNumber_spec (db : DB) (tipe : String) (tanggal : Datum) :
    generateTransactionNumber db tipe tanggal = specTransactionNumber db tipe tanggal := by
  simp only [generateTransactionNumber, specTransactionNumber, filter_filter_and,
    foldl_optmax]

/-- C9: `getIncomeStatementReport` is an unimplemented placeholder: for every
filter it returns the empty list, so it never produces the income-statement
rows its own documentation promises. -/
theorem getIncomeStatementReport_always_empty (filter : ReportFilter) :
    getIncomeStatementReport filter = [] := rfl

/-- C10: a header with no detail rows is vacuously balanced:
`validateTransactionBalance` returns `true`, and `postTransaction` on such a
header does not raise the balance error and marks it as posted. -/
theorem validateTransactionBalance_empty_details (db : DB) (id : Nat)
    (h : TransactionHeader)
    (hempty : db.details.filter (fun d => d.header_id == id) = [])
    (hfind : db.headers.find? (fun x => x.id == id) = some h) :
    validateTransactionBalance db id = true ∧
      (postTransaction db id).1 = Except.ok { h with is_posted := true } ∧
      ∀ h' ∈ (postTransaction db id).2.headers, h'.id = id → h'.is_posted = true := by
  have hval : validateTransactionBalance db id = true := by
    unfold validateTransactionBalance
    rw [hempty]
    norm_num
  refine ⟨hval, ?_, ?_⟩
  · unfold postTransaction
    rw [hval, hfind]
    rfl
  · intro h' hmem hid
    unfold postTransaction at hmem
    rw [hval, hfind] at hmem
    simp only [Bool.not_true, Bool.false_eq_true, if_false, List.mem_map] at hmem
    obtain ⟨x, _, hx⟩ := hmem
    by_cases hxid : x.id == id
    · rw [if_pos hxid] at hx
      rw [← hx]
    · rw [if_neg hxid] at hx
      subst hx
      simp [hid] at hxid

/-- An example header row with no detail rows. -/
def exEmptyHeader : TransactionHeader :=
  { id := 1, nomor_transaksi := "JU-202601-001", tanggal := ⟨2026, 0, 15⟩,
    tipe := "JURNAL_UMUM", deskripsi := "x", total_debit := 0,
    total_kredit := 0, relation_id := none, user_id := 1, is_posted := false }

/-- An example store holding one user and one detail-less header. -/
def exEmptyHeaderDB : DB :=
  { users := [1], relations := [], accounts := [], headers := [exEmptyHeader],
    details := [], nextHeaderId := 2, nextDetailId := 1 }

/-- Witness for C10 at a one-header store with no details. -/
theorem validateTransactionBalance_empty_details_witness :
    validateTransactionBalance exEmptyHeaderDB 1 = true ∧
      (postTransaction exEmptyHeaderDB 1).1 =
        Except.ok { exEmptyHeader with is_posted := true } :=
  ⟨(validateTransactionBalance_empty_details exEmptyHeaderDB 1 exEmptyHeader rfl rfl).1,
    (validateTransactionBalance_empty_details exEmptyHeaderDB 1 exEmptyHeader rfl rfl).2.1⟩

theorem firstMissingAccount_eq_none (db : DB) :
    ∀ l : List CreateTransactionDetailInput,
      (∀ d ∈ l, ∃ a ∈ db.accounts, a.id = d.account_id) →
      firstMissingAccount db l = none
  | [], _ => rfl
  | d :: rest, hacc => by
      obtain ⟨a, hamem, haid⟩ := hacc d (List.mem_cons_self d rest)
      have hany : db.accounts.any (fun a => a.id == d.account_id) = true := by
        simp only [List.any_eq_true]
        exact ⟨a, hamem, by simp [haid]⟩
      unfold firstMissingAccount
      rw [if_pos hany]
      exact firstMissingAccount_eq_none db rest
        (fun d' hd' => hacc d' (List.mem_cons_of_mem d hd'))

theorem mkDetailRows_map_triple (hid : Nat) :
    ∀ (startId : Nat) (l : List CreateTransactionDetailInput),
      (mkDetailRows hid startId l).map (fun d => (d.account_id, d.debit, d.kredit)) =
        l.map (fun d => (d.account_id, d.debit, d.kredit))
  | _, [] => rfl
  | startId, d :: rest => by
      simp [mkDetailRows, mkDetailRows_map_triple hid (startId + 1) rest]

/-- C1 (amended): with existing user, relation and accounts,
`createCompleteTransaction` throws `Total debit must equal total kredit` iff
the debit and kredit sums differ by more than the `0.01` tolerance; within
the tolerance (in particular when the sums are exactly equal) it succeeds and
stores the header with its details. -/
theorem createCompleteTransaction_tolerance (db : DB)
    (input : CreateCompleteTransactionInput)
    (huser : db.users.contains input.header.user_id = true)
    (hrel : ∀ r, input.header.relation_id = some r → db.relations.contains r = true)
    (hacc : ∀ d ∈ input.details, ∃ a ∈ db.accounts, a.id = d.account_id) :
    ((createCompleteTransaction db input).1 =
        Except.error "Total debit must equal total kredit" ↔
      1 / 100 < |((input.details.map (fun d => d.debit)).sum : ℚ) -
          (input.details.map (fun d => d.kredit)).sum|) ∧
    (|((input.details.map (fun d => d.debit)).sum : ℚ) -
        (input.details.map (fun d => d.kredit)).sum| ≤ 1 / 100 →
      ∃ ct : CompleteTransaction,
        (createCompleteTransaction db input).1 = Except.ok ct ∧
        (createCompleteTransaction db input).2.headers = db.headers ++ [ct.header] ∧
        (createCompleteTransaction db input).2.details = db.details ++ ct.details ∧
        ct.header.total_debit = (input.details.map (fun d => d.debit)).sum ∧
        ct.header.total_kredit = (input.details.map (fun d => d.kredit)).sum ∧
        ct.header.is_posted = false ∧
        ct.details.map (fun d => (d.account_id, d.debit, d.kredit)) =
          input.details.map (fun d => (d.account_id, d.debit, d.kredit))) := by
  have hsumD : input.details.foldl (fun s d => s + d.debit) 0 =
      (input.details.map (fun d => d.debit)).sum := by
    simpa using foldl_add_map (fun d : CreateTransactionDetailInput => d.debit)
      input.details 0
  have hsumK : input.details.foldl (fun s d => s + d.kredit) 0 =
      (input.details.map (fun d => d.kredit)).sum := by
    simpa using foldl_add_map (fun d : CreateTransactionDetailInput => d.kredit)
      input.details 0
  have hRcond : (truthyOpt input.header.relation_id &&
      !(db.relations.contains (input.header.relation_id.getD 0))) = false := by
    cases hr : input.header.relation_id with
    | none => rfl
    | some r =>
        by_cases hr0 : r = 0
        · subst hr0
          simp [truthyOpt]
        · have hc : r ∈ db.relations := by simpa using hrel r hr
          simp [truthyOpt, hr0, hc]
  have hAcond : firstMissingAccount db input.details = none :=
    firstMissingAccount_eq_none db input.details hacc
  by_cases htol : 1 / 100 <
      |((input.details.map (fun d => d.debit)).sum : ℚ) -
        (input.details.map (fun d => d.kredit)).sum|
  · constructor
    · refine ⟨fun _ => htol, fun _ => ?_⟩
      simp only [createCompleteTransaction, hsumD, hsumK]
      rw [if_pos htol]
    · intro hle
      exact absurd htol (not_lt.mpr hle)
  · have hok :
        createCompleteTransaction db input =
          (Except.ok
            { header :=
                { id := db.nextHeaderId,
                  nomor_transaksi := input.header.nomor_transaksi,
                  tanggal := input.header.tanggal,
                  tipe := input.header.tipe,
                  deskripsi := input.header.deskripsi,
                  total_debit := input.details.foldl (fun s d => s + d.debit) 0,
                  total_kredit := input.details.foldl (fun s d => s + d.kredit) 0,
                  relation_id := input.header.relation_id,
                  user_id := input.header.user_id,
                  is_posted := false },
              details := mkDetailRows db.nextHeaderId db.nextDetailId input.details },
            { db with
              headers := db.headers ++
                [{ id := db.nextHeaderId,
                   nomor_transaksi := input.header.nomor_transaksi,
                   tanggal := input.header.tanggal,
                   tipe := input.header.tipe,
                   deskripsi := input.header.deskripsi,
                   total_debit := input.details.foldl (fun s d => s + d.debit) 0,
                   total_kredit := input.details.foldl (fun s d => s + d.kredit) 0,
                   relation_id := input.header.relation_id,
                   user_id := input.header.user_id,
                   is_posted := false }],
              details := db.details ++
                mkDetailRows db.nextHeaderId db.nextDetailId input.details,
              nextHeaderId := db.nextHeaderId + 1,
              nextDetailId := db.nextDetailId + input.details.length }) := by
      have hU2 : (!(db.users.contains input.header.user_id)) = false := by
        rw [huser]
        rfl
      simp only [createCompleteTransaction, hsumD, hsumK]
      rw [if_neg htol]
      rw [hU2, hRcond, hAcond]
      rfl
    constructor
    · exact iff_of_false (by rw [hok]; simp) htol
    · intro _
      refine ⟨_, by rw [hok], by rw [hok], by rw [hok], ?_, ?_, rfl,
        mkDetailRows_map_triple db.nextHeaderId db.nextDetailId input.details⟩
      · exact hsumD
      · exact hsumK

/-- An asset account used by the concrete examples. -/
def exAsetAccount : Account :=
  { id := 1, kode := "1000", nama := "Kas", tipe := AccountType.ASET,
    saldo_awal := 0, is_active := true }

/-- A store with one user, one account and no transactions. -/
def exBaseDB : DB :=
  { users := [1], relations := [], accounts := [exAsetAccount], headers := [],
    details := [], nextHeaderId := 1, nextDetailId := 1 }

/-- A header input referencing user 1 and no relation. -/
def exHeaderInput : CreateTransactionHeaderInput :=
  { nomor_transaksi := "JU-202601-001", tanggal := ⟨2026, 0, 10⟩,
    tipe := "JURNAL_UMUM", deskripsi := "d", relation_id := none, user_id := 1 }

/-- A detail input of `0.005` debit against no kredit. -/
def exUnequalDetail : CreateTransactionDetailInput :=
  { header_id := 0, account_id := 1, deskripsi := "kas", debit := 1 / 200,
    kredit := 0, urutan := 1 }

/-- An input whose debit sum (`0.005`) differs from its kredit sum (`0`) by
less than the `0.01` tolerance. -/
def exUnequalInput : CreateCompleteTransactionInput :=
  { header := exHeaderInput, details := [exUnequalDetail] }

/-- Counterexample to C1 as stated: on a store where the user and all
accounts exist, this input has unequal debit and kredit sums, yet
`createCompleteTransaction` does not throw the balance error (the difference
is below the `0.01` tolerance). -/
theorem createCompleteTransaction_accepts_unequal_sums :
    ((exUnequalInput.details.map (fun d => d.debit)).sum : ℚ) ≠
        (exUnequalInput.details.map (fun d => d.kredit)).sum ∧
      (createCompleteTransaction exBaseDB exUnequalInput).1 ≠
        Except.error "Total debit must equal total kredit" := by
  constructor
  · simp only [exUnequalInput, exUnequalDetail, List.map_cons, List.map_nil,
      List.sum_cons, List.sum_nil]
    norm_num
  · simp only [createCompleteTransaction, exBaseDB, exUnequalInput,
      exHeaderInput, exUnequalDetail, List.foldl_cons, List.foldl_nil]
    rw [if_neg (by norm_num [abs_le])]
    simp [truthyOpt, firstMissingAccount, exAsetAccount]

/-- A debit line of `100`. -/
def exDebitDetail : CreateTransactionDetailInput :=
  { header_id := 0, account_id := 1, deskripsi := "a", debit := 100,
    kredit := 0, urutan := 1 }

/-- A kredit line of `100`. -/
def exKreditDetail : CreateTransactionDetailInput :=
  { header_id := 0, account_id := 1, deskripsi := "b", debit := 0,
    kredit := 100, urutan := 2 }

/-- A balanced input (debits `100`, kredits `100`). -/
def exBalancedInput : CreateCompleteTransactionInput :=
  { header := exHeaderInput, details := [exDebitDetail, exKreditDetail] }

/-- Witness for the amended C1 at a balanced concrete input. -/
theorem createCompleteTransaction_tolerance_witness :
    exBaseDB.users.contains exBalancedInput.header.user_id = true ∧
      (((createCompleteTransaction exBaseDB exBalancedInput).1 =
          Except.error "Total debit must equal total kredit" ↔
        1 / 100 < |((exBalancedInput.details.map (fun d => d.debit)).sum : ℚ) -
            (exBalancedInput.details.map (fun d => d.kredit)).sum|) ∧
      (|((exBalancedInput.details.map (fun d => d.debit)).sum : ℚ) -
          (exBalancedInput.details.map (fun d => d.kredit)).sum| ≤ 1 / 100 →
        ∃ ct : CompleteTransaction,
          (createCompleteTransaction exBaseDB exBalancedInput).1 = Except.ok ct ∧
          (createCompleteTransaction exBaseDB exBalancedInput).2.headers =
            exBaseDB.headers ++ [ct.header] ∧
          (createCompleteTransaction exBaseDB exBalancedInput).2.details =
            exBaseDB.details ++ ct.details ∧
          ct.header.total_debit = (exBalancedInput.details.map (fun d => d.debit)).sum ∧
          ct.header.total_kredit = (exBalancedInput.details.map (fun d => d.kredit)).sum ∧
          ct.header.is_posted = false ∧
          ct.details.map (fun d => (d.account_id, d.debit, d.kredit)) =
            exBalancedInput.details.map (fun d => (d.account_id, d.debit, d.kredit)))) :=
  ⟨by decide, createCompleteTransaction_tolerance exBaseDB exBalancedInput (by decide)
    (fun r h => by simp [exBalancedInput, exHeaderInput] at h)
    (by simp [exBalancedInput, exBaseDB, exAsetAccount, exDebitDetail, exKreditDetail])⟩

theorem ratTolPos : (0 : ℚ) < 1 / 100 := by norm_num

theorem validateTransactionBalance_iff (db : DB) (id : Nat) :
    validateTransactionBalance db id = true ↔
      |((db.details.filter (fun d => d.header_id == id)).map (fun d => d.debit)).sum -
          ((db.details.filter (fun d => d.header_id == id)).map (fun d => d.kredit)).sum| <
        1 / 100 := by
  simp only [validateTransactionBalance]
  rw [foldl_add_map (fun d : TransactionDetail => d.debit),
    foldl_add_map (fun d : TransactionDetail => d.kredit), zero_add, zero_add]
  split_ifs with h
  · exact iff_of_true rfl h
  · exact iff_of_false (by simp) h

/-- C2 (amended): `postTransaction` validates the balance up to the `0.01`
tolerance before marking the header final: when the debit/kredit sums of the
header's detail rows differ by at least `0.01` it throws the balance error
and leaves the store unchanged (so `is_posted` keeps its previous value);
when they differ by less than `0.01` and the header exists it sets
`is_posted` to `true` and returns the updated header. -/
theorem postTransaction_tolerance (db : DB) (id : Nat) :
    (1 / 100 ≤
        |((db.details.filter (fun d => d.header_id == id)).map (fun d => d.debit)).sum -
          ((db.details.filter (fun d => d.header_id == id)).map (fun d => d.kredit)).sum| →
      postTransaction db id =
        (Except.error "Transaction is not balanced (debits ≠ credits)", db)) ∧
    (|((db.details.filter (fun d => d.header_id == id)).map (fun d => d.debit)).sum -
          ((db.details.filter (fun d => d.header_id == id)).map (fun d => d.kredit)).sum| <
        1 / 100 →
      ∀ h, db.headers.find? (fun x => x.id == id) = some h →
        (postTransaction db id).1 = Except.ok { h with is_posted := true } ∧
        (postTransaction db id).2 =
          { db with headers := db.headers.map (fun x =>
              if x.id == id then { x with is_posted := true } else x) }) := by
  constructor
  · intro hge
    have hval : validateTransactionBalance db id = false := by
      rcases Bool.eq_false_or_eq_true (validateTransactionBalance db id) with ht | hf
      · exact absurd ((validateTransactionBalance_iff db id).mp ht) (not_lt.mpr hge)
      · exact hf
    unfold postTransaction
    rw [hval]
    rfl
  · intro hlt h hfind
    have hval : validateTransactionBalance db id = true :=
      (validateTransactionBalance_iff db id).mpr hlt
    unfold postTransaction
    rw [hval, hfind]
    exact ⟨rfl, rfl⟩

/-- Witness for the amended C2: posting the detail-less (hence balanced)
header of `exEmptyHeaderDB` succeeds and flips `is_posted`. -/
theorem postTransaction_tolerance_witness :
    (postTransaction exEmptyHeaderDB 1).1 =
        Except.ok { exEmptyHeader with is_posted := true } ∧
      (postTransaction exEmptyHeaderDB 1).2 =
        { exEmptyHeaderDB with headers := exEmptyHeaderDB.headers.map (fun x =>
            if x.id == 1 then { x with is_posted := true } else x) } :=
  (postTransaction_tolerance exEmptyHeaderDB 1).2
    (by simp [exEmptyHeaderDB]) exEmptyHeader rfl

/-- The stored header whose single detail is out of balance by `0.005`. -/
def exTinyHeader : TransactionHeader :=
  { id := 1, nomor_transaksi := "JU-202601-003", tanggal := ⟨2026, 0, 12⟩,
    tipe := "JURNAL_UMUM", deskripsi := "t", total_debit := 1 / 200,
    total_kredit := 0, relation_id := none, user_id := 1, is_posted := false }

/-- A stored detail row of `0.005` debit against no kredit. -/
def exTinyDetail : TransactionDetail :=
  { id := 1, header_id := 1, account_id := 1, deskripsi := "kas",
    debit := 1 / 200, kredit := 0, urutan := 1 }

/-- A store whose only transaction has unequal debit and kredit sums, with
the difference below the tolerance. -/
def exTinyImbalanceDB : DB :=
  { users := [1], relations := [], accounts := [exAsetAccount],
    headers := [exTinyHeader], details := [exTinyDetail], nextHeaderId := 2,
    nextDetailId := 2 }

/-- Counterexample to C2 as stated: the sums of this header's details differ
(`0.005` vs `0`), yet `postTransaction` does not throw and marks the header
as posted. -/
theorem postTransaction_posts_unequal_sums :
    ((exTinyImbalanceDB.details.filter (fun d => d.header_id == 1)).map
          (fun d => d.debit)).sum ≠
        ((exTinyImbalanceDB.details.filter (fun d => d.header_id == 1)).map
          (fun d => d.kredit)).sum ∧
      (postTransaction exTinyImbalanceDB 1).1 =
        Except.ok { exTinyHeader with is_posted := true } := by
  constructor
  · simp only [exTinyImbalanceDB, exTinyDetail, List.filter, List.map_cons,
      List.map_nil, List.sum_cons, List.sum_nil]
    norm_num
  · have hval : validateTransactionBalance exTinyImbalanceDB 1 = true := by
      unfold validateTransactionBalance
      simp only [exTinyImbalanceDB, exTinyDetail, List.filter, List.foldl_cons,
        List.foldl_nil]
      norm_num [abs_lt]
    unfold postTransaction
    rw [hval]
    rfl

/-- C3: a posted transaction is immutable: each of the five mutating
operations that target it (`addTransactionDetail`, `updateTransactionHeader`,
`updateTransactionDetail`, `deleteTransactionDetail`, `deleteTransaction`)
throws and leaves the store — in particular the header and all of its detail
rows — unchanged. -/
theorem posted_transaction_immutable (db : DB) (hid : Nat) (h : TransactionHeader)
    (hfind : db.headers.find? (fun x => x.id == hid) = some h)
    (hposted : h.is_posted = true) :
    (∀ input : CreateTransactionDetailInput, input.header_id = hid →
        addTransactionDetail db input =
          (Except.error "Cannot add detail to posted transaction", db)) ∧
    (∀ input : UpdateTransactionHeaderInput,
        updateTransactionHeader db hid input =
          (Except.error "Cannot update posted transaction", db)) ∧
    (∀ (did : Nat) (d : TransactionDetail) (input : UpdateTransactionDetailInput),
        db.details.find? (fun x => x.id == did) = some d → d.header_id = hid →
        updateTransactionDetail db did input =
          (Except.error "Cannot update detail of posted transaction", db)) ∧
    (∀ (did : Nat) (d : TransactionDetail),
        db.details.find? (fun x => x.id == did) = some d → d.header_id = hid →
        deleteTransactionDetail db did =
          (Except.error "Cannot delete detail from posted transaction", db)) ∧
    deleteTransaction db hid = (Except.error "Cannot delete posted transaction", db) := by
  refine ⟨?_, ?_, ?_, ?_, ?_⟩
  · intro input hinp
    simp [addTransactionDetail, hinp, hfind, hposted]
  · intro input
    simp [updateTransactionHeader, hfind, hposted]
  · intro did d input hdfind hdh
    simp [updateTransactionDetail, hdfind, hdh, hfind, hposted]
  · intro did d hdfind hdh
    simp [deleteTransactionDetail, hdfind, hdh, hfind, hposted]
  · simp [deleteTransaction, hfind, hposted]

/-- A posted, balanced header. -/
def exPostedHeader : TransactionHeader :=
  { id := 1, nomor_transaksi := "JU-202601-004", tanggal := ⟨2026, 0, 13⟩,
    tipe := "JURNAL_UMUM", deskripsi := "p", total_debit := 100,
    total_kredit := 100, relation_id := none, user_id := 1, is_posted := true }

/-- The debit row of the posted transaction. -/
def exPostedDetail : TransactionDetail :=
  { id := 1, header_id := 1, account_id := 1, deskripsi := "a", debit := 100,
    kredit := 0, urutan := 1 }

/-- The kredit row of the posted transaction. -/
def exPostedDetail2 : TransactionDetail :=
  { id := 2, header_id := 1, account_id := 1, deskripsi := "b", debit := 0,
    kredit := 100, urutan := 2 }

/-- A store holding one posted transaction with two detail rows. -/
def exPostedDB : DB :=
  { users := [1], relations := [], accounts := [exAsetAccount],
    headers := [exPostedHeader], details := [exPostedDetail, exPostedDetail2],
    nextHeaderId := 2, nextDetailId := 3 }

/-- A detail input aimed at the posted header. -/
def exAddInput : CreateTransactionDetailInput :=
  { header_id := 1, account_id := 1, deskripsi := "x", debit := 1, kredit := 0,
    urutan := 3 }

/-- A header update with no fields present. -/
def exNoHeaderUpdate : UpdateTransactionHeaderInput :=
  { nomor_transaksi := none, tanggal := none, tipe := none, deskripsi := none,
    relation_id := none, user_id := none }

/-- A detail update with no fields present. -/
def exNoDetailUpdate : UpdateTransactionDetailInput :=
  { header_id := none, account_id := none, deskripsi := none, debit := none,
    kredit := none, urutan := none }

/-- Witness for C3: each of the five operations, aimed at the posted
transaction of `exPostedDB`, throws and leaves the store unchanged. -/
theorem posted_transaction_immutable_witness :
    exPostedDB.headers.find? (fun x => x.id == 1) = some exPostedHeader ∧
      exPostedHeader.is_posted = true ∧
      addTransactionDetail exPostedDB exAddInput =
        (Except.error "Cannot add detail to posted transaction", exPostedDB) ∧
      updateTransactionHeader exPostedDB 1 exNoHeaderUpdate =
        (Except.error "Cannot update posted transaction", exPostedDB) ∧
      updateTransactionDetail exPostedDB 1 exNoDetailUpdate =
        (Except.error "Cannot update detail of posted transaction", exPostedDB) ∧
      deleteTransactionDetail exPostedDB 1 =
        (Except.error "Cannot delete detail from posted transaction", exPostedDB) ∧
      deleteTransaction exPostedDB 1 =
        (Except.error "Cannot delete posted transaction", exPostedDB) :=
  ⟨by decide, by decide,
    (posted_transaction_immutable exPostedDB 1 exPostedHeader (by decide)
      (by decide)).1 exAddInput (by decide),
    (posted_transaction_immutable exPostedDB 1 exPostedHeader (by decide)
      (by decide)).2.1 exNoHeaderUpdate,
    (posted_transaction_immutable exPostedDB 1 exPostedHeader (by decide)
      (by decide)).2.2.1 1 exPostedDetail exNoDetailUpdate (by decide) (by decide),
    (posted_transaction_immutable exPostedDB 1 exPostedHeader (by decide)
      (by decide)).2.2.2.1 1 exPostedDetail (by decide) (by decide),
    (posted_transaction_immutable exPostedDB 1 exPostedHeader (by decide)
      (by decide)).2.2.2.2⟩

theorem detailsDebitSum_append (l1 l2 : List TransactionDetail) (hid : Nat) :
    detailsDebitSum (l1 ++ l2) hid = detailsDebitSum l1 hid + detailsDebitSum l2 hid := by
  simp [detailsDebitSum, List.filter_append]

theorem detailsKreditSum_append (l1 l2 : List TransactionDetail) (hid : Nat) :
    detailsKreditSum (l1 ++ l2) hid = detailsKreditSum l1 hid + detailsKreditSum l2 hid := by
  simp [detailsKreditSum, List.filter_append]

theorem detailsFilter_eq_nil (l : List TransactionDetail) (hid : Nat)
    (hne : ∀ d ∈ l, d.header_id ≠ hid) :
    l.filter (fun d => d.header_id == hid) = [] := by
  rw [List.filter_eq_nil_iff]
  intro d hd
  simp [hne d hd]

theorem detailsDebitSum_eq_zero (l : List TransactionDetail) (hid : Nat)
    (hne : ∀ d ∈ l, d.header_id ≠ hid) : detailsDebitSum l hid = 0 := by
  simp [detailsDebitSum, detailsFilter_eq_nil l hid hne]

theorem detailsKreditSum_eq_zero (l : List TransactionDetail) (hid : Nat)
    (hne : ∀ d ∈ l, d.header_id ≠ hid) : detailsKreditSum l hid = 0 := by
  simp [detailsKreditSum, detailsFilter_eq_nil l hid hne]

theorem mkDetailRows_header_id (hid : Nat) :
    ∀ (startId : Nat) (l : List CreateTransactionDetailInput),
      ∀ d ∈ mkDetailRows hid startId l, d.header_id = hid
  | _, [], _, hd => by cases hd
  | startId, x :: rest, d, hd => by
      rcases List.mem_cons.mp hd with h | h
      · rw [h]
      · exact mkDetailRows_header_id hid (startId + 1) rest d h

theorem mkDetailRows_map_debit (hid : Nat) :
    ∀ (startId : Nat) (l : List CreateTransactionDetailInput),
      (mkDetailRows hid startId l).map (fun d => d.debit) =
        l.map (fun d => d.debit)
  | _, [] => rfl
  | startId, x :: rest => by
      simp [mkDetailRows, mkDetailRows_map_debit hid (startId + 1) rest]

theorem mkDetailRows_map_kredit (hid : Nat) :
    ∀ (startId : Nat) (l : List CreateTransactionDetailInput),
      (mkDetailRows hid startId l).map (fun d => d.kredit) =
        l.map (fun d => d.kredit)
  | _, [] => rfl
  | startId, x :: rest => by
      simp [mkDetailRows, mkDetailRows_map_kredit hid (startId + 1) rest]

theorem mkDetailRows_debitSum (hid startId : Nat) (l : List CreateTransactionDetailInput) :
    detailsDebitSum (mkDetailRows hid startId l) hid = (l.map (fun d => d.debit)).sum := by
  unfold detailsDebitSum
  rw [List.filter_eq_self.mpr, mkDetailRows_map_debit]
  intro d hd
  simp [mkDetailRows_header_id hid startId l d hd]

theorem mkDetailRows_kreditSum (hid startId : Nat) (l : List CreateTransactionDetailInput) :
    detailsKreditSum (mkDetailRows hid startId l) hid = (l.map (fun d => d.kredit)).sum := by
  unfold detailsKreditSum
  rw [List.filter_eq_self.mpr, mkDetailRows_map_kredit]
  intro d hd
  simp [mkDetailRows_header_id hid startId l d hd]

theorem totalsInv_updateHeaderTotals (db : DB) (hid : Nat)
    (hother : ∀ h ∈ db.headers, h.id ≠ hid →
      h.total_debit = detailsDebitSum db.details h.id ∧
        h.total_kredit = detailsKreditSum db.details h.id) :
    TotalsInv (updateHeaderTotals db hid) := by
  intro h' hmem
  replace hmem : h' ∈ db.headers.map (fun h =>
      if h.id == hid then
        { h with
          total_debit := (db.details.filter (fun d => d.header_id == hid)).foldl
            (fun s d => s + d.debit) 0,
          total_kredit := (db.details.filter (fun d => d.header_id == hid)).foldl
            (fun s d => s + d.kredit) 0 }
      else h) := hmem
  show h'.total_debit = detailsDebitSum db.details h'.id ∧
    h'.total_kredit = detailsKreditSum db.details h'.id
  obtain ⟨h0, h0mem, rfl⟩ := List.mem_map.mp hmem
  by_cases hcase : h0.id = hid
  · rw [if_pos (by simp [hcase])]
    constructor
    · show (db.details.filter (fun d => d.header_id == hid)).foldl
          (fun s d => s + d.debit) 0 = detailsDebitSum db.details h0.id
      rw [foldl_add_map, zero_add, hcase]
      rfl
    · show (db.details.filter (fun d => d.header_id == hid)).foldl
          (fun s d => s + d.kredit) 0 = detailsKreditSum db.details h0.id
      rw [foldl_add_map, zero_add, hcase]
      rfl
  · rw [if_neg (by simp [hcase])]
    exact hother h0 h0mem hcase

theorem totalsInv_map_headers (db : DB) (g : TransactionHeader → TransactionHeader)
    (hg : ∀ h, (g h).id = h.id ∧ (g h).total_debit = h.total_debit ∧
      (g h).total_kredit = h.total_kredit)
    (hinv : TotalsInv db) :
    TotalsInv { db with headers := db.headers.map g } := by
  intro h' hmem
  replace hmem : h' ∈ db.headers.map g := hmem
  obtain ⟨h0, h0mem, rfl⟩ := List.mem_map.mp hmem
  show (g h0).total_debit = detailsDebitSum db.details (g h0).id ∧
    (g h0).total_kredit = detailsKreditSum db.details (g h0).id
  rw [(hg h0).1, (hg h0).2.1, (hg h0).2.2]
  exact hinv h0 h0mem

theorem filter_map_comm (g : α → α) (p : α → Bool) (hp : ∀ x, p (g x) = p x) :
    ∀ l : List α, (l.map g).filter p = (l.filter p).map g
  | [] => rfl
  | x :: t => by
      by_cases hpx : p x
      · simp [List.filter_cons, hp x, hpx, filter_map_comm g p hp t]
      · simp [List.filter_cons, hp x, hpx, filter_map_comm g p hp t]

theorem nodup_find?_unique {l : List TransactionDetail} {did : Nat}
    {d : TransactionDetail}
    (hnd : (l.map (fun d => d.id)).Nodup)
    (hfind : l.find? (fun x => x.id == did) = some d) :
    ∀ x ∈ l, x.id = did → x = d := by
  intro x hx hxid
  have hdmem : d ∈ l := List.mem_of_find?_eq_some hfind
  have hdid : d.id = did := by
    have := List.find?_some hfind
    simpa using this
  exact List.inj_on_of_nodup_map hnd hx hdmem (by rw [hxid, hdid])

theorem hother_append (db : DB) (extra : List TransactionDetail) (hid : Nat)
    (hinv : TotalsInv db)
    (hextra : ∀ d ∈ extra, d.header_id = hid) :
    ∀ h ∈ db.headers, h.id ≠ hid →
      h.total_debit = detailsDebitSum (db.details ++ extra) h.id ∧
        h.total_kredit = detailsKreditSum (db.details ++ extra) h.id := by
  intro h hmem hne
  have hz : ∀ d ∈ extra, d.header_id ≠ h.id := by
    intro d hd
    rw [hextra d hd]
    exact fun hc => hne hc.symm
  constructor
  · rw [detailsDebitSum_append, detailsDebitSum_eq_zero extra _ hz, add_zero]
    exact (hinv h hmem).1
  · rw [detailsKreditSum_append, detailsKreditSum_eq_zero extra _ hz, add_zero]
    exact (hinv h hmem).2

theorem hother_stable (db : DB) (details2 : List TransactionDetail) (hid : Nat)
    (hinv : TotalsInv db)
    (hsums : ∀ hid2, hid2 ≠ hid →
      detailsDebitSum details2 hid2 = detailsDebitSum db.details hid2 ∧
        detailsKreditSum details2 hid2 = detailsKreditSum db.details hid2) :
    ∀ h ∈ db.headers, h.id ≠ hid →
      h.total_debit = detailsDebitSum details2 h.id ∧
        h.total_kredit = detailsKreditSum details2 h.id := by
  intro h hmem hne
  rw [(hsums h.id hne).1, (hsums h.id hne).2]
  exact hinv h hmem

theorem detailsSum_map_stable (l : List TransactionDetail)
    (g : TransactionDetail → TransactionDetail) (hid2 : Nat)
    (hgh : ∀ x, (g x).header_id = x.header_id)
    (hval : ∀ x ∈ l, x.header_id = hid2 → g x = x) :
    detailsDebitSum (l.map g) hid2 = detailsDebitSum l hid2 ∧
      detailsKreditSum (l.map g) hid2 = detailsKreditSum l hid2 := by
  have hcomm := filter_map_comm g (fun d => d.header_id == hid2)
    (fun x => by simp [hgh x]) l
  have hfix : (l.filter (fun d => d.header_id == hid2)).map g =
      l.filter (fun d => d.header_id == hid2) := by
    have : ∀ x ∈ l.filter (fun d => d.header_id == hid2), g x = x := by
      intro x hx
      obtain ⟨hxl, hxp⟩ := List.mem_filter.mp hx
      exact hval x hxl (by simpa using hxp)
    calc (l.filter (fun d => d.header_id == hid2)).map g
        = (l.filter (fun d => d.header_id == hid2)).map id :=
          List.map_congr_left this
      _ = l.filter (fun d => d.header_id == hid2) := List.map_id _
  constructor
  · unfold detailsDebitSum
    rw [hcomm, hfix]
  · unfold detailsKreditSum
    rw [hcomm, hfix]

theorem detailsSum_filter_stable (l : List TransactionDetail)
    (q : TransactionDetail → Bool) (hid2 : Nat)
    (hq : ∀ x ∈ l, x.header_id = hid2 → q x = true) :
    detailsDebitSum (l.filter q) hid2 = detailsDebitSum l hid2 ∧
      detailsKreditSum (l.filter q) hid2 = detailsKreditSum l hid2 := by
  have hff : (l.filter q).filter (fun d => d.header_id == hid2) =
      l.filter (fun d => d.header_id == hid2) := by
    rw [filter_filter_and]
    apply List.filter_congr
    intro x hx
    by_cases hp : x.header_id = hid2
    · simp [hp, hq x hx hp]
    · simp [hp]
  constructor
  · unfold detailsDebitSum
    rw [hff]
  · unfold detailsKreditSum
    rw [hff]

theorem totalsInv_createTransactionHeader (db : DB)
    (input : CreateTransactionHeaderInput) (hwf : WF db) (hinv : TotalsInv db) :
    TotalsInv (createTransactionHeader db input).2 := by
  unfold createTransactionHeader
  split_ifs with h1 h2
  · exact hinv
  · exact hinv
  · intro h' hmem
    rcases List.mem_append.mp hmem with hold | hnew
    · exact hinv h' hold
    · rw [List.mem_singleton] at hnew
      subst hnew
      refine ⟨?_, ?_⟩
      · exact (detailsDebitSum_eq_zero _ _
          (fun d hd => Nat.ne_of_lt (hwf.detail_header_lt d hd))).symm
      · exact (detailsKreditSum_eq_zero _ _
          (fun d hd => Nat.ne_of_lt (hwf.detail_header_lt d hd))).symm

theorem totalsInv_createCompleteTransaction (db : DB)
    (input : CreateCompleteTransactionInput) (hwf : WF db) (hinv : TotalsInv db) :
    TotalsInv (createCompleteTransaction db input).2 := by
  cases hfm : firstMissingAccount db input.details with
  | some m =>
      simp only [createCompleteTransaction, hfm]
      split_ifs
      all_goals exact hinv
  | none =>
      simp only [createCompleteTransaction, hfm]
      split_ifs
      case _ => exact hinv
      case _ => exact hinv
      case _ => exact hinv
      case _ =>
        intro h' hmem
        rcases List.mem_append.mp hmem with hold | hnew
        · exact hother_append db _ db.nextHeaderId hinv
            (mkDetailRows_header_id db.nextHeaderId db.nextDetailId input.details)
            h' hold (Nat.ne_of_lt (hwf.header_id_lt h' hold))
        · rw [List.mem_singleton] at hnew
          subst hnew
          refine ⟨?_, ?_⟩
          · show input.details.foldl (fun s d => s + d.debit) 0 =
              detailsDebitSum
                (db.details ++ mkDetailRows db.nextHeaderId db.nextDetailId input.details)
                db.nextHeaderId
            rw [detailsDebitSum_append,
              detailsDebitSum_eq_zero db.details _
                (fun d hd => Nat.ne_of_lt (hwf.detail_header_lt d hd)),
              zero_add, mkDetailRows_debitSum, foldl_add_map, zero_add]
          · show input.details.foldl (fun s d => s + d.kredit) 0 =
              detailsKreditSum
                (db.details ++ mkDetailRows db.nextHeaderId db.nextDetailId input.details)
                db.nextHeaderId
            rw [detailsKreditSum_append,
              detailsKreditSum_eq_zero db.details _
                (fun d hd => Nat.ne_of_lt (hwf.detail_header_lt d hd)),
              zero_add, mkDetailRows_kreditSum, foldl_add_map, zero_add]

theorem totalsInv_addTransactionDetail (db : DB)
    (input : CreateTransactionDetailInput) (hinv : TotalsInv db) :
    TotalsInv (addTransactionDetail db input).2 := by
  cases hfind : db.headers.find? (fun h => h.id == input.header_id) with
  | none =>
      simp only [addTransactionDetail, hfind]
      exact hinv
  | some h0 =>
      simp only [addTransactionDetail, hfind]
      split_ifs with hp hacc
      · exact hinv
      · exact hinv
      · apply totalsInv_updateHeaderTotals
        intro h hmem hne
        exact hother_append db
          [{ id := db.nextDetailId, header_id := input.header_id,
             account_id := input.account_id, deskripsi := input.deskripsi,
             debit := input.debit, kredit := input.kredit, urutan := input.urutan }]
          input.header_id hinv
          (by intro d hd; rw [List.mem_singleton] at hd; rw [hd])
          h hmem hne

theorem totalsInv_updateTransactionHeader (db : DB) (id : Nat)
    (input : UpdateTransactionHeaderInput) (hinv : TotalsInv db) :
    TotalsInv (updateTransactionHeader db id input).2 := by
  cases hfind : db.headers.find? (fun h => h.id == id) with
  | none =>
      simp only [updateTransactionHeader, hfind]
      exact hinv
  | some h0 =>
      simp only [updateTransactionHeader, hfind]
      split_ifs with hp hu hr
      · exact hinv
      · exact hinv
      · exact hinv
      · exact totalsInv_map_headers db _
          (fun h => by
            by_cases hc : (h.id == id) = true <;> simp [hc, applyHeaderUpdate])
          hinv

theorem totalsInv_postTransaction (db : DB) (id : Nat) (hinv : TotalsInv db) :
    TotalsInv (postTransaction db id).2 := by
  cases hfind : db.headers.find? (fun h => h.id == id) with
  | none =>
      simp only [postTransaction, hfind]
      split_ifs
      · exact hinv
      · exact hinv
  | some h0 =>
      simp only [postTransaction, hfind]
      split_ifs with hbal
      · exact hinv
      · exact totalsInv_map_headers db _
          (fun h => by by_cases hc : (h.id == id) = true <;> simp [hc])
          hinv

theorem totalsInv_unpostTransaction (db : DB) (id : Nat) (hinv : TotalsInv db) :
    TotalsInv (unpostTransaction db id).2 := by
  cases hfind : db.headers.find? (fun h => h.id == id) with
  | none =>
      simp only [unpostTransaction, hfind]
      exact hinv
  | some h0 =>
      simp only [unpostTransaction, hfind]
      exact totalsInv_map_headers db _
        (fun h => by by_cases hc : (h.id == id) = true <;> simp [hc])
        hinv

theorem totalsInv_updateTransactionDetail (db : DB) (id : Nat)
    (input : UpdateTransactionDetailInput) (hwf : WF db) (hinv : TotalsInv db) :
    TotalsInv (updateTransactionDetail db id input).2 := by
  cases hdfind : db.details.find? (fun d => d.id == id) with
  | none =>
      simp only [updateTransactionDetail, hdfind]
      exact hinv
  | some d0 =>
      cases hhfind : db.headers.find? (fun h => h.id == d0.header_id) with
      | none =>
          simp only [updateTransactionDetail, hdfind, hhfind]
          exact hinv
      | some h0 =>
          simp only [updateTransactionDetail, hdfind, hhfind]
          split_ifs with hp hacc
          · exact hinv
          · exact hinv
          · apply totalsInv_updateHeaderTotals
            apply hother_stable db _ d0.header_id hinv
            intro hid2 hne2
            apply detailsSum_map_stable
            · intro x
              by_cases hc : (x.id == id) = true <;> simp [hc, applyDetailUpdate]
            · intro x hx hxh
              have hxid : (x.id == id) = false := by
                by_contra hcon
                have hxeq : x = d0 := nodup_find?_unique hwf.detail_nodup hdfind x hx
                  (by simpa using Bool.not_eq_false _ |>.mp hcon)
                exact hne2 (by rw [← hxeq, hxh])
              simp [hxid]

theorem totalsInv_deleteTransactionDetail (db : DB) (id : Nat)
    (hwf : WF db) (hinv : TotalsInv db) :
    TotalsInv (deleteTransactionDetail db id).2 := by
  cases hdfind : db.details.find? (fun d => d.id == id) with
  | none =>
      simp only [deleteTransactionDetail, hdfind]
      exact hinv
  | some d0 =>
      cases hhfind : db.headers.find? (fun h => h.id == d0.header_id) with
      | none =>
          simp only [deleteTransactionDetail, hdfind, hhfind]
          exact hinv
      | some h0 =>
          simp only [deleteTransactionDetail, hdfind, hhfind]
          split_ifs with hp
          · exact hinv
          · apply totalsInv_updateHeaderTotals
            apply hother_stable db _ d0.header_id hinv
            intro hid2 hne2
            apply detailsSum_filter_stable
            intro x hx hxh
            have hxid : (x.id == id) = false := by
              by_contra hcon
              have hxeq : x = d0 := nodup_find?_unique hwf.detail_nodup hdfind x hx
                (by simpa using Bool.not_eq_false _ |>.mp hcon)
              exact hne2 (by rw [← hxeq, hxh])
            simp [hxid]

theorem totalsInv_deleteTransaction (db : DB) (id : Nat) (hinv : TotalsInv db) :
    TotalsInv (deleteTransaction db id).2 := by
  cases hfind : db.headers.find? (fun h => h.id == id) with
  | none =>
      simp only [deleteTransaction, hfind]
      exact hinv
  | some h0 =>
      simp only [deleteTransaction, hfind]
      split_ifs with hp
      · exact hinv
      · intro h' hmem
        obtain ⟨hold, hpred⟩ := List.mem_filter.mp hmem
        have hne : h'.id ≠ id := by simpa using hpred
        have hsums := detailsSum_filter_stable db.details
          (fun d => !(d.header_id == id)) h'.id
          (fun x _ hxh => by simp [hxh, hne])
        refine ⟨?_, ?_⟩
        · rw [hsums.1]
          exact (hinv h' hold).1
        · rw [hsums.2]
          exact (hinv h' hold).2

/-- C4: every exported transaction operation preserves the header/detail
totals invariant: afterwards every stored header's `total_debit` and
`total_kredit` are the sums of the debit and kredit amounts of its detail
rows. -/
theorem transaction_ops_preserve_totals (db : DB) (op : TxOp)
    (hwf : WF db) (hinv : TotalsInv db) : TotalsInv (applyTxOp db op) := by
  cases op with
  | createHeader input => exact totalsInv_createTransactionHeader db input hwf hinv
  | createComplete input => exact totalsInv_createCompleteTransaction db input hwf hinv
  | addDetail input => exact totalsInv_addTransactionDetail db input hinv
  | updateHeader id input => exact totalsInv_updateTransactionHeader db id input hinv
  | updateDetail id input => exact totalsInv_updateTransactionDetail db id input hwf hinv
  | deleteDetail id => exact totalsInv_deleteTransactionDetail db id hwf hinv
  | post id => exact totalsInv_postTransaction db id hinv
  | unpost id => exact totalsInv_unpostTransaction db id hinv
  | deleteTx id => exact totalsInv_deleteTransaction db id hinv

/-- Witness for C4: the invariant holds on `exPostedDB` and is preserved by
adding a detail row to its (posted, hence rejected) transaction. -/
theorem transaction_ops_preserve_totals_witness :
    WF exPostedDB ∧ TotalsInv exPostedDB ∧
      TotalsInv (applyTxOp exPostedDB (TxOp.addDetail exAddInput)) :=
  have hwf : WF exPostedDB :=
    ⟨by decide, by decide, by decide, by decide, by decide⟩
  have hinv : TotalsInv exPostedDB := by
    intro h hmem
    rw [show exPostedDB.headers = [exPostedHeader] from rfl] at hmem
    rw [List.mem_singleton] at hmem
    subst hmem
    constructor <;>
      simp [exPostedHeader, exPostedDB, detailsDebitSum, detailsKreditSum,
        exPostedDetail, exPostedDetail2, List.filter]
  ⟨hwf, hinv, transaction_ops_preserve_totals exPostedDB
    (TxOp.addDetail exAddInput) hwf hinv⟩

theorem posted_base {db : DB} {h : TransactionHeader}
    (hnd : (db.headers.map (fun x => x.id)).Nodup)
    (hmem : h ∈ db.headers) (hposted : h.is_posted = true) :
    ∀ h' ∈ db.headers, h'.id = h.id → h'.is_posted = true := by
  intro h' hm' heq
  rw [List.inj_on_of_nodup_map hnd hm' hmem heq]
  exact hposted

theorem posted_map_pres (l : List TransactionHeader)
    (g : TransactionHeader → TransactionHeader) (hid0 : Nat)
    (hgid : ∀ x, (g x).id = x.id)
    (hgp : ∀ x, x.is_posted = true → (g x).is_posted = true)
    (base : ∀ h' ∈ l, h'.id = hid0 → h'.is_posted = true) :
    ∀ h' ∈ l.map g, h'.id = hid0 → h'.is_posted = true := by
  intro h' hm' heq
  obtain ⟨x, hx, rfl⟩ := List.mem_map.mp hm'
  exact hgp x (base x hx (by rw [← hgid x]; exact heq))

/-- C5 (amended): posting is final with respect to every exported operation
except `unpostTransaction`: if a header of a well-formed store is posted,
then after any operation other than `unpostTransaction` every stored header
with that id is still posted.  (`unpostTransaction` itself deliberately
reverts `is_posted` to `false`.) -/
theorem posted_preserved_except_unpost (db : DB) (op : TxOp)
    (h : TransactionHeader) (hwf : WF db) (hmem : h ∈ db.headers)
    (hposted : h.is_posted = true) (hnu : ∀ i, op ≠ TxOp.unpost i) :
    ∀ h' ∈ (applyTxOp db op).headers, h'.id = h.id → h'.is_posted = true := by
  have base := posted_base hwf.header_nodup hmem hposted
  cases op with
  | createHeader input =>
      simp only [applyTxOp, createTransactionHeader]
      split_ifs with h1 h2
      · exact base
      · exact base
      · intro h' hm' heq
        rcases List.mem_append.mp hm' with hold | hnew
        · exact base h' hold heq
        · rw [List.mem_singleton] at hnew
          subst hnew
          exact absurd heq (Nat.ne_of_gt (hwf.header_id_lt h hmem))
  | createComplete input =>
      cases hfm : firstMissingAccount db input.details with
      | some m =>
          simp only [applyTxOp, createCompleteTransaction, hfm]
          split_ifs
          all_goals exact base
      | none =>
          simp only [applyTxOp, createCompleteTransaction, hfm]
          split_ifs
          case _ => exact base
          case _ => exact base
          case _ => exact base
          case _ =>
            intro h' hm' heq
            rcases List.mem_append.mp hm' with hold | hnew
            · exact base h' hold heq
            · rw [List.mem_singleton] at hnew
              subst hnew
              exact absurd heq (Nat.ne_of_gt (hwf.header_id_lt h hmem))
  | addDetail input =>
      cases hfind : db.headers.find? (fun x => x.id == input.header_id) with
      | none =>
          simp only [applyTxOp, addTransactionDetail, hfind]
          exact base
      | some h0 =>
          simp only [applyTxOp, addTransactionDetail, hfind]
          split_ifs with hp hacc
          · exact base
          · exact base
          · exact posted_map_pres db.headers _ h.id
              (fun x => by by_cases hc : (x.id == input.header_id) = true <;> simp [hc])
              (fun x hx => by by_cases hc : (x.id == input.header_id) = true <;> simp [hc, hx])
              base
  | updateHeader id input =>
      cases hfind : db.headers.find? (fun x => x.id == id) with
      | none =>
          simp only [applyTxOp, updateTransactionHeader, hfind]
          exact base
      | some h0 =>
          simp only [applyTxOp, updateTransactionHeader, hfind]
          split_ifs with hp hu hr
          · exact base
          · exact base
          · exact base
          · exact posted_map_pres db.headers _ h.id
              (fun x => by
                by_cases hc : (x.id == id) = true <;> simp [hc, applyHeaderUpdate])
              (fun x hx => by
                by_cases hc : (x.id == id) = true <;> simp [hc, applyHeaderUpdate, hx])
              base
  | updateDetail id input =>
      cases hdfind : db.details.find? (fun d => d.id == id) with
      | none =>
          simp only [applyTxOp, updateTransactionDetail, hdfind]
          exact base
      | some d0 =>
          cases hhfind : db.headers.find? (fun x => x.id == d0.header_id) with
          | none =>
              simp only [applyTxOp, updateTransactionDetail, hdfind, hhfind]
              exact base
          | some h0 =>
              simp only [applyTxOp, updateTransactionDetail, hdfind, hhfind]
              split_ifs with hp hacc
              · exact base
              · exact base
              · exact posted_map_pres db.headers _ h.id
                  (fun x => by
                    by_cases hc : (x.id == d0.header_id) = true <;> simp [hc])
                  (fun x hx => by
                    by_cases hc : (x.id == d0.header_id) = true <;> simp [hc, hx])
                  base
  | deleteDetail id =>
      cases hdfind : db.details.find? (fun d => d.id == id) with
      | none =>
          simp only [applyTxOp, deleteTransactionDetail, hdfind]
          exact base
      | some d0 =>
          cases hhfind : db.headers.find? (fun x => x.id == d0.header_id) with
          | none =>
              simp only [applyTxOp, deleteTransactionDetail, hdfind, hhfind]
              exact base
          | some h0 =>
              simp only [applyTxOp, deleteTransactionDetail, hdfind, hhfind]
              split_ifs with hp
              · exact base
              · exact posted_map_pres db.headers _ h.id
                  (fun x => by
                    by_cases hc : (x.id == d0.header_id) = true <;> simp [hc])
                  (fun x hx => by
                    by_cases hc : (x.id == d0.header_id) = true <;> simp [hc, hx])
                  base
  | post id =>
      cases hfind : db.headers.find? (fun x => x.id == id) with
      | none =>
          simp only [applyTxOp, postTransaction, hfind]
          split_ifs
          · exact base
          · exact base
      | some h0 =>
          simp only [applyTxOp, postTransaction, hfind]
          split_ifs with hbal
          · exact base
          · exact posted_map_pres db.headers _ h.id
              (fun x => by by_cases hc : (x.id == id) = true <;> simp [hc])
              (fun x hx => by by_cases hc : (x.id == id) = true <;> simp [hc, hx])
              base
  | unpost i => exact absurd rfl (hnu i)
  | deleteTx id =>
      cases hfind : db.headers.find? (fun x => x.id == id) with
      | none =>
          simp only [applyTxOp, deleteTransaction, hfind]
          exact base
      | some h0 =>
          simp only [applyTxOp, deleteTransaction, hfind]
          split_ifs with hp
          · exact base
          · intro h' hm' heq
            exact base h' (List.mem_of_mem_filter hm') heq

/-- Witness for the amended C5: deleting the posted transaction of
`exPostedDB` (an operation other than unpost) leaves its header posted. -/
theorem posted_preserved_except_unpost_witness :
    WF exPostedDB ∧ exPostedHeader ∈ exPostedDB.headers ∧
      exPostedHeader ∈ (applyTxOp exPostedDB (TxOp.deleteTx 1)).headers ∧
      exPostedHeader.is_posted = true :=
  ⟨⟨by decide, by decide, by decide, by decide, by decide⟩, by decide, by decide,
    posted_preserved_except_unpost exPostedDB (TxOp.deleteTx 1) exPostedHeader
      ⟨by decide, by decide, by decide, by decide, by decide⟩ (by decide)
      (by decide) (fun i hc => TxOp.noConfusion hc) exPostedHeader (by decide) rfl⟩

/-- The header created by running `createTransactionHeader` with
`exHeaderInput` on `exBaseDB`. -/
def exCreatedHeader : TransactionHeader :=
  { id := 1, nomor_transaksi := "JU-202601-001", tanggal := ⟨2026, 0, 10⟩,
    tipe := "JURNAL_UMUM", deskripsi := "d", total_debit := 0,
    total_kredit := 0, relation_id := none, user_id := 1, is_posted := false }

/-- The store after creating the header. -/
def exS1 : DB :=
  { users := [1], relations := [], accounts := [exAsetAccount],
    headers := [exCreatedHeader], details := [], nextHeaderId := 2,
    nextDetailId := 1 }

/-- The store after posting the header. -/
def exS2 : DB :=
  { users := [1], relations := [], accounts := [exAsetAccount],
    headers := [{ exCreatedHeader with is_posted := true }], details := [],
    nextHeaderId := 2, nextDetailId := 1 }

/-- Counterexample to C5 as stated: in the reachable sequence
create-header, post, unpost, the third step returns the posted header to
`is_posted = false`. -/
theorem unpostTransaction_reverts_posted :
    applyTxOp exBaseDB (TxOp.createHeader exHeaderInput) = exS1 ∧
      applyTxOp exS1 (TxOp.post 1) = exS2 ∧
      (exS2.headers.map (fun h => h.is_posted)) = [true] ∧
      ((applyTxOp exS2 (TxOp.unpost 1)).headers.map (fun h => h.is_posted)) =
        [false] := by
  have hval : validateTransactionBalance exS1 1 = true := by
    simp [validateTransactionBalance, exS1]
  refine ⟨by decide, ?_, by decide, by decide⟩
  simp only [applyTxOp, postTransaction]
  rw [hval]
  rfl

/-- A complete-transaction input with an empty details list. -/
def exEmptyInput : CreateCompleteTransactionInput :=
  { header := exHeaderInput, details := [] }

/-- Counterexample to C7 as stated: `createTransactionHeader` succeeds and
stores a header with zero detail rows, and `createCompleteTransaction` does
not reject an input whose details list is empty (it succeeds, storing a
header with no details). -/
theorem zero_detail_header_reachable :
    (createTransactionHeader exBaseDB exHeaderInput).1 = Except.ok exCreatedHeader ∧
      (createTransactionHeader exBaseDB exHeaderInput).2.details.filter
        (fun d => d.header_id == exCreatedHeader.id) = [] ∧
      (createCompleteTransaction exBaseDB exEmptyInput).1 =
        Except.ok { header := exCreatedHeader, details := [] } := by
  refine ⟨rfl, by decide, ?_⟩
  simp only [createCompleteTransaction, exBaseDB, exEmptyInput, exHeaderInput,
    List.foldl_nil]
  rw [if_neg (by norm_num)]
  rfl

/-- C7 (amended): the one-or-more-details shape is not enforced: an input
with an empty details list passes `createCompleteTransaction`'s validation
(the balance check holds vacuously) and stores a header with zero detail
rows, and `createTransactionHeader` always stores a header with zero detail
rows. -/
theorem empty_details_accepted (db : DB) (input : CreateCompleteTransactionInput)
    (hempty : input.details = [])
    (huser : db.users.contains input.header.user_id = true)
    (hrel : ∀ r, input.header.relation_id = some r → db.relations.contains r = true)
    (horph : ∀ d ∈ db.details, d.header_id < db.nextHeaderId) :
    (∃ ct : CompleteTransaction,
        (createCompleteTransaction db input).1 = Except.ok ct ∧ ct.details = [] ∧
        (createCompleteTransaction db input).2.details.filter
          (fun d => d.header_id == ct.header.id) = []) ∧
    (∀ hinput : CreateTransactionHeaderInput,
        db.users.contains hinput.user_id = true →
        (∀ r, hinput.relation_id = some r → db.relations.contains r = true) →
        ∃ h : TransactionHeader,
          (createTransactionHeader db hinput).1 = Except.ok h ∧
          (createTransactionHeader db hinput).2.details.filter
            (fun d => d.header_id == h.id) = []) := by
  have hfilter : db.details.filter (fun d => d.header_id == db.nextHeaderId) = [] :=
    detailsFilter_eq_nil db.details db.nextHeaderId
      (fun d hd => Nat.ne_of_lt (horph d hd))
  constructor
  · have hU2 : (!(db.users.contains input.header.user_id)) = false := by
      rw [huser]
      rfl
    have hRcond : (truthyOpt input.header.relation_id &&
        !(db.relations.contains (input.header.relation_id.getD 0))) = false := by
      cases hr : input.header.relation_id with
      | none => rfl
      | some r =>
          by_cases hr0 : r = 0
          · subst hr0
            simp [truthyOpt]
          · have hc : r ∈ db.relations := by simpa using hrel r hr
            simp [truthyOpt, hr0, hc]
    refine ⟨⟨⟨db.nextHeaderId, input.header.nomor_transaksi, input.header.tanggal,
      input.header.tipe, input.header.deskripsi, 0, 0, input.header.relation_id,
      input.header.user_id, false⟩, []⟩, ?_, rfl, ?_⟩
    · simp only [createCompleteTransaction, hempty, List.foldl_nil]
      rw [if_neg (by norm_num), hU2, hRcond]
      rfl
    · simp only [createCompleteTransaction, hempty, List.foldl_nil]
      rw [if_neg (by norm_num), hU2, hRcond]
      show (db.details ++ mkDetailRows db.nextHeaderId db.nextDetailId []).filter
        (fun d => d.header_id == db.nextHeaderId) = []
      rw [show mkDetailRows db.nextHeaderId db.nextDetailId [] = [] from rfl,
        List.append_nil]
      exact hfilter
  · intro hinput huser2 hrel2
    have hU2 : (!(db.users.contains hinput.user_id)) = false := by
      rw [huser2]
      rfl
    have hRcond : (truthyOpt hinput.relation_id &&
        !(db.relations.contains (hinput.relation_id.getD 0))) = false := by
      cases hr : hinput.relation_id with
      | none => rfl
      | some r =>
          by_cases hr0 : r = 0
          · subst hr0
            simp [truthyOpt]
          · have hc : r ∈ db.relations := by simpa using hrel2 r hr
            simp [truthyOpt, hr0, hc]
    refine ⟨⟨db.nextHeaderId, hinput.nomor_transaksi, hinput.tanggal,
      hinput.tipe, hinput.deskripsi, 0, 0, hinput.relation_id,
      hinput.user_id, false⟩, ?_, ?_⟩
    · simp only [createTransactionHeader]
      rw [hU2, hRcond]
      rfl
    · simp only [createTransactionHeader]
      rw [hU2, hRcond]
      exact hfilter

/-- Witness for the amended C7 at `exBaseDB` with an empty details list. -/
theorem empty_details_accepted_witness :
    exEmptyInput.details = [] ∧
      (∃ ct : CompleteTransaction,
        (createCompleteTransaction exBaseDB exEmptyInput).1 = Except.ok ct ∧
          ct.details = [] ∧
          (createCompleteTransaction exBaseDB exEmptyInput).2.details.filter
            (fun d => d.header_id == ct.header.id) = []) ∧
      (∃ h : TransactionHeader,
        (createTransactionHeader exBaseDB exHeaderInput).1 = Except.ok h ∧
          (createTransactionHeader exBaseDB exHeaderInput).2.details.filter
            (fun d => d.header_id == h.id) = []) :=
  ⟨rfl,
    (empty_details_accepted exBaseDB exEmptyInput rfl (by decide)
      (fun r h => by simp [exEmptyInput, exHeaderInput] at h)
      (by simp [exBaseDB])).1,
    (empty_details_accepted exBaseDB exEmptyInput rfl (by decide)
      (fun r h => by simp [exEmptyInput, exHeaderInput] at h)
      (by simp [exBaseDB])).2 exHeaderInput (by decide)
      (fun r h => by simp [exHeaderInput] at h)⟩

theorem filter_id_length (x : Nat) (P : TransactionHeader → Bool) :
    ∀ hs : List TransactionHeader, (hs.map (fun h => h.id)).Nodup →
      (hs.filter (fun h => h.id == x && P h)).length =
        if hs.any (fun h => h.id == x && P h) then 1 else 0
  | [], _ => rfl
  | h :: t, hnd => by
      obtain ⟨hnotin, hndt⟩ := List.nodup_cons.mp hnd
      by_cases hp : (h.id == x && P h) = true
      · have hxid : h.id = x := by
          have := (Bool.and_eq_true _ _).mp hp
          simpa using this.1
        have htnil : t.filter (fun y => y.id == x && P y) = [] := by
          rw [List.filter_eq_nil_iff]
          intro y hy
          intro hc
          apply hnotin
          have hyid : y.id = x := by
            have := (Bool.and_eq_true _ _).mp hc
            simpa using this.1
          show h.id ∈ List.map (fun h => h.id) t
          rw [hxid, ← hyid]
          exact List.mem_map_of_mem _ hy
        simp [List.filter_cons, List.any_cons, hp, htnil]
      · simp only [List.filter_cons, List.any_cons, hp, if_false,
          Bool.false_or]
        exact filter_id_length x P t hndt

theorem map_const_rat_sum (c : ℚ) : ∀ l : List β, ((l.map (fun _ => c)).sum) = l.length * c
  | [] => by simp
  | x :: t => by
      simp [map_const_rat_sum c t]
      ring

theorem join_block_sum (hs : List TransactionHeader)
    (hnd : (hs.map (fun h => h.id)).Nodup) (x : Nat) (P : TransactionHeader → Bool)
    (c : ℚ) :
    ((hs.filter (fun h => h.id == x && P h)).map (fun _ => c)).sum =
      if hs.any (fun h => h.id == x && P h) then c else 0 := by
  rw [map_const_rat_sum, filter_id_length x P hs hnd]
  by_cases h : hs.any (fun h => h.id == x && P h) = true <;> simp [h]

theorem join_sum_fst (hs : List TransactionHeader)
    (hnd : (hs.map (fun h => h.id)).Nodup) (P : TransactionHeader → Bool)
    (v w : TransactionDetail → ℚ) :
    ∀ ds : List TransactionDetail,
      ((ds.flatMap (fun d => (hs.filter (fun h => h.id == d.header_id && P h)).map
          (fun _ => (v d, w d)))).map Prod.fst).sum =
        ((ds.filter (fun d => hs.any (fun h => h.id == d.header_id && P h))).map v).sum
  | [] => rfl
  | d :: ds => by
      rw [List.flatMap_cons, List.map_append, List.sum_append,
        join_sum_fst hs hnd P v w ds, List.map_map]
      have hblock : ((hs.filter (fun h => h.id == d.header_id && P h)).map
          (Prod.fst ∘ fun _ => (v d, w d))).sum =
          if hs.any (fun h => h.id == d.header_id && P h) then v d else 0 :=
        join_block_sum hs hnd d.header_id P (v d)
      rw [hblock]
      by_cases hany : hs.any (fun h => h.id == d.header_id && P h) = true
      · simp [List.filter_cons, hany]
      · simp [List.filter_cons, hany]

theorem join_sum_snd (hs : List TransactionHeader)
    (hnd : (hs.map (fun h => h.id)).Nodup) (P : TransactionHeader → Bool)
    (v w : TransactionDetail → ℚ) :
    ∀ ds : List TransactionDetail,
      ((ds.flatMap (fun d => (hs.filter (fun h => h.id == d.header_id && P h)).map
          (fun _ => (v d, w d)))).map Prod.snd).sum =
        ((ds.filter (fun d => hs.any (fun h => h.id == d.header_id && P h))).map w).sum
  | [] => rfl
  | d :: ds => by
      rw [List.flatMap_cons, List.map_append, List.sum_append,
        join_sum_snd hs hnd P v w ds, List.map_map]
      have hblock : ((hs.filter (fun h => h.id == d.header_id && P h)).map
          (Prod.snd ∘ fun _ => (v d, w d))).sum =
          if hs.any (fun h => h.id == d.header_id && P h) then w d else 0 :=
        join_block_sum hs hnd d.header_id P (w d)
      rw [hblock]
      by_cases hany : hs.any (fun h => h.id == d.header_id && P h) = true
      · simp [List.filter_cons, hany]
      · simp [List.filter_cons, hany]

theorem mkBalanceRow_eq_spec (db : DB) (filter : ReportFilter) (a : Account)
    (hnd : (db.headers.map (fun h => h.id)).Nodup)
    (htipe : a.tipe = AccountType.ASET ∨ a.tipe = AccountType.KEWAJIBAN ∨
      a.tipe = AccountType.EKUITAS) :
    mkBalanceRow db filter a = specBalanceRow db filter a := by
  have hdeb :
      ((db.details.filter (fun d => d.account_id == a.id)).flatMap
          (fun d => (db.headers.filter (fun h =>
              h.id == d.header_id && dateLe h.tanggal filter.sampai_tanggal)).map
            (fun _ => (d.debit, d.kredit)))).foldl (fun s t => s + t.1) 0 =
        ((db.details.filter (fun d => d.account_id == a.id &&
            db.headers.any (fun h =>
              h.id == d.header_id && dateLe h.tanggal filter.sampai_tanggal))).map
          (fun d => d.debit)).sum := by
    rw [foldl_add_map, zero_add,
      join_sum_fst db.headers hnd _ (fun d => d.debit) (fun d => d.kredit),
      filter_filter_and]
  have hkred :
      ((db.details.filter (fun d => d.account_id == a.id)).flatMap
          (fun d => (db.headers.filter (fun h =>
              h.id == d.header_id && dateLe h.tanggal filter.sampai_tanggal)).map
            (fun _ => (d.debit, d.kredit)))).foldl (fun s t => s + t.2) 0 =
        ((db.details.filter (fun d => d.account_id == a.id &&
            db.headers.any (fun h =>
              h.id == d.header_id && dateLe h.tanggal filter.sampai_tanggal))).map
          (fun d => d.kredit)).sum := by
    rw [foldl_add_map, zero_add,
      join_sum_snd db.headers hnd _ (fun d => d.debit) (fun d => d.kredit),
      filter_filter_and]
  simp only [mkBalanceRow, specBalanceRow]
  rw [hdeb, hkred]
  rcases htipe with h | h | h <;> rw [h] <;> simp

theorem insertLe_map (f : α → β) (le : β → β → Bool) (le2 : α → α → Bool)
    (hle : ∀ a b, le (f a) (f b) = le2 a b) (x : α) :
    ∀ l : List α, insertLe le (f x) (l.map f) = (insertLe le2 x l).map f
  | [] => rfl
  | y :: t => by
      simp only [List.map_cons, insertLe, hle y x]
      by_cases h : le2 y x = true
      · simp [h, insertLe_map f le le2 hle x t]
      · simp [h]

theorem isortLe_foldl_map (f : α → β) (le : β → β → Bool) (le2 : α → α → Bool)
    (hle : ∀ a b, le (f a) (f b) = le2 a b) :
    ∀ l acc : List α,
      l.foldl (fun a x => insertLe le (f x) a) (acc.map f) =
        (l.foldl (fun a x => insertLe le2 x a) acc).map f
  | [], _ => rfl
  | x :: t, acc => by
      simp only [List.foldl_cons]
      rw [insertLe_map f le le2 hle x acc]
      exact isortLe_foldl_map f le le2 hle t (insertLe le2 x acc)

theorem isortLe_map (f : α → β) (le : β → β → Bool) (le2 : α → α → Bool)
    (hle : ∀ a b, le (f a) (f b) = le2 a b) (l : List α) :
    isortLe le (l.map f) = (isortLe le2 l).map f := by
  unfold isortLe
  rw [List.foldl_map]
  exact isortLe_foldl_map f le le2 hle l []

theorem mem_insertLe (le : α → α → Bool) (y : α) :
    ∀ (l : List α) (x : α), x ∈ insertLe le y l → x = y ∨ x ∈ l
  | [], x, hx => by simpa [insertLe] using hx
  | z :: t, x, hx => by
      unfold insertLe at hx
      by_cases h : le z y = true
      · rw [if_pos h] at hx
        rcases List.mem_cons.mp hx with h1 | h2
        · right
          rw [h1]
          exact List.mem_cons_self z t
        · rcases mem_insertLe le y t x h2 with h3 | h4
          · left
            exact h3
          · right
            exact List.mem_cons_of_mem z h4
      · rw [if_neg h] at hx
        rcases List.mem_cons.mp hx with h1 | h2
        · left
          exact h1
        · right
          exact h2

theorem mem_isortLe_foldl (le : α → α → Bool) :
    ∀ (l acc : List α) (x : α),
      x ∈ l.foldl (fun a y => insertLe le y a) acc → x ∈ acc ∨ x ∈ l
  | [], _, _, hx => Or.inl hx
  | y :: t, acc, x, hx => by
      simp only [List.foldl_cons] at hx
      rcases mem_isortLe_foldl le t (insertLe le y acc) x hx with h1 | h2
      · rcases mem_insertLe le y acc x h1 with h3 | h4
        · right
          rw [h3]
          exact List.mem_cons_self y t
        · left
          exact h4
      · right
        exact List.mem_cons_of_mem y h2

theorem mem_isortLe (le : α → α → Bool) (l : List α) (x : α)
    (hx : x ∈ isortLe le l) : x ∈ l := by
  unfold isortLe at hx
  rcases mem_isortLe_foldl le l [] x hx with h | h
  · cases h
  · exact h

/-- C8: `getFinancialPositionReport` returns exactly one row per active
`ASET`/`KEWAJIBAN`/`EKUITAS` account, with debit/kredit the sums of that
account's detail lines over all transactions (posted or not) dated on or
before `sampai_tanggal`, the ending balance computed by account-type
direction, rows ordered `ASET`, `KEWAJIBAN`, `EKUITAS` and by account code
within a type; `dari_tanggal` is not used. -/
theorem getFinancialPositionReport_spec (db : DB) (filter : ReportFilter)
    (hnd : (db.headers.map (fun h => h.id)).Nodup) :
    getFinancialPositionReport db filter = financialPositionSpec db filter ∧
      ∀ g : ReportFilter, g.sampai_tanggal = filter.sampai_tanggal →
        getFinancialPositionReport db g = getFinancialPositionReport db filter := by
  constructor
  · simp only [getFinancialPositionReport, financialPositionSpec]
    rw [filter_filter_and,
      isortLe_map (mkBalanceRow db filter) balanceLe accountLe (fun a b => rfl)]
    apply List.map_congr_left
    intro a ha
    have hmem := mem_isortLe accountLe _ a ha
    have hpred := (List.mem_filter.mp hmem).2
    simp only [Bool.and_eq_true, Bool.or_eq_true, beq_iff_eq] at hpred
    exact mkBalanceRow_eq_spec db filter a hnd
      (by rcases hpred.2 with (h | h) | h
          · exact Or.inl h
          · exact Or.inr (Or.inl h)
          · exact Or.inr (Or.inr h))
  · intro g hg
    have hrow : mkBalanceRow db g = mkBalanceRow db filter := by
      funext a
      unfold mkBalanceRow
      rw [hg]
    unfold getFinancialPositionReport
    rw [hrow]

/-- A report filter over January 2026. -/
def exReportFilter : ReportFilter :=
  { dari_tanggal := ⟨2026, 0, 1⟩, sampai_tanggal := ⟨2026, 0, 31⟩ }

/-- Witness for C8 on the store with one posted transaction. -/
theorem getFinancialPositionReport_spec_witness :
    (exPostedDB.headers.map (fun h => h.id)).Nodup ∧
      getFinancialPositionReport exPostedDB exReportFilter =
        financialPositionSpec exPostedDB exReportFilter :=
  ⟨by decide,
    (getFinancialPositionReport_spec exPostedDB exReportFilter (by decide)).1⟩
